import Mathlib

/-!
Verification of the FourierBSDF table loader from `src/materials/fourier.cpp`
(`FourierBSDFTable::Read`, `IsBigEndian`, `FourierMaterial::ComputeScatteringFunctions`).

The file contents are modelled as a `List Nat` of bytes (each taken mod 256, matching
the range of a C `unsigned char`).  32-bit reads follow `read32`: the four bytes are
first assembled in the host's native byte order and, on a big-endian host, byte-swapped
with `__builtin_bswap32`; the net effect is a little-endian decode on either host.

Numeric modelling choices:
* C `int`/`int32_t` values are `Int`s obtained through `int32` (two's-complement
  interpretation of a 32-bit word).
* 32-bit floats read from the file are kept as their raw 32-bit words (`Nat`): the
  loader only moves them around, so word equality coincides with value equality
  (`readfloat` performs a value-preserving widening when `Float` is `double`).
* `recip[i] = 1 / (Float)i` is modelled over `ℚ`; index 0 holds `1/0` (infinity in
  IEEE arithmetic, `0` in `ℚ`) and is only ever stated for indices `k ≥ 1`.
* `operator new[]` with a negative element count throws `std::bad_array_new_length`
  (C++11 [expr.new]); this exit is modelled by the `LoadOutcome.thrown` outcome, on
  which `fclose` is never executed.  Allocation is otherwise assumed to succeed.
* The read `bsdfTable->a[offset]` with `offset` outside the coefficient buffer is
  undefined behaviour; the model marks such executions `LoadOutcome.ub` and proves
  nothing about them.
* `nMu * nMu` is computed with exact integer arithmetic; the C++ `int` computation
  overflows (undefined behaviour) only for `nMu > 46340`.
-/

namespace PbrtFourier

/-- A byte of the file / of C memory: the stored list entry reduced mod 256. -/
def byteAt (bytes : List Nat) (i : Nat) : Nat := bytes.getD i 0 % 256

/-- Little-endian assembly of the four bytes starting at offset `p`. -/
def leW (bytes : List Nat) (p : Nat) : Nat :=
  byteAt bytes p + 256 * byteAt bytes (p + 1) + 65536 * byteAt bytes (p + 2) +
    16777216 * byteAt bytes (p + 3)

/-- Big-endian assembly of the four bytes starting at offset `p` (what a big-endian
host sees after `fread` places the bytes in memory). -/
def beW (bytes : List Nat) (p : Nat) : Nat :=
  16777216 * byteAt bytes p + 65536 * byteAt bytes (p + 1) + 256 * byteAt bytes (p + 2) +
    byteAt bytes (p + 3)

/-- `__builtin_bswap32`: reverse the four bytes of a 32-bit word. -/
def bswap32 (w : Nat) : Nat :=
  16777216 * (w % 256) + 65536 * (w / 256 % 256) + 256 * (w / 65536 % 256) +
    w / 16777216 % 256

/-- One 32-bit word as decoded by the lambda `read32`: native interpretation of the
four bytes at `p`, byte-swapped when the host (`big`) is big-endian. -/
def hostWord (big : Bool) (bytes : List Nat) (p : Nat) : Nat :=
  if big then bswap32 (beW bytes p) else leW bytes p

/-- `count` consecutive 32-bit words decoded by `read32` starting at offset `p`. -/
def hostWords (big : Bool) (bytes : List Nat) (p count : Nat) : List Nat :=
  (List.range count).map fun i => hostWord big bytes (p + 4 * i)

/-- Little-endian word sequence (host-independent description of `hostWords`). -/
def wordsLE (bytes : List Nat) (p count : Nat) : List Nat :=
  (List.range count).map fun i => leW bytes (p + 4 * i)

/-- Two's-complement reading of a 32-bit word as a C `int32_t`. -/
def int32 (w : Nat) : Int :=
  if w % 4294967296 < 2147483648 then ((w % 4294967296 : Nat) : Int)
  else ((w % 4294967296 : Nat) : Int) - 4294967296

/-- The expected 8-byte magic/version marker `'S','C','A','T','F','U','N',0x01`. -/
def magicBytes : List Nat := [83, 67, 65, 84, 70, 85, 78, 1]

/-- Header field `flags` (file offset 8, little-endian `uint32` read as `int`). -/
def flagsOf (bytes : List Nat) : Int := int32 (leW bytes 8)

/-- Header field `nMu` (file offset 12). -/
def nMuOf (bytes : List Nat) : Int := int32 (leW bytes 12)

/-- Header field `nCoeffs` (file offset 16). -/
def nCoeffsOf (bytes : List Nat) : Int := int32 (leW bytes 16)

/-- Header field `mMax` (file offset 20). -/
def mMaxOf (bytes : List Nat) : Int := int32 (leW bytes 20)

/-- Header field `nChannels` (file offset 24). -/
def nChannelsOf (bytes : List Nat) : Int := int32 (leW bytes 24)

/-- Header field `nBases` (file offset 28). -/
def nBasesOf (bytes : List Nat) : Int := int32 (leW bytes 28)

/-- Header field `eta` (file offset 44), kept as its raw 32-bit word. -/
def etaWordOf (bytes : List Nat) : Nat := leW bytes 44

/-- `nMu` clamped to `Nat` (the loader only reaches the array stage with `nMu ≥ 0`). -/
def nMuNatOf (bytes : List Nat) : Nat := (nMuOf bytes).toNat

/-- `nMu * nMu`, the number of (incoming, outgoing) angle pairs. -/
def n2Of (bytes : List Nat) : Nat := nMuNatOf bytes * nMuNatOf bytes

/-- The `mu` section: `nMu` 32-bit float words starting at file offset 64. -/
def muWordsOf (bytes : List Nat) : List Nat := wordsLE bytes 64 (nMuNatOf bytes)

/-- The `cdf` section: `nMu * nMu` float words following the `mu` section. -/
def cdfWordsOf (bytes : List Nat) : List Nat :=
  wordsLE bytes (64 + 4 * nMuNatOf bytes) (n2Of bytes)

/-- The coefficient section: `nCoeffs` float words following the offset/length pairs. -/
def coeffWordsOf (bytes : List Nat) : List Nat :=
  wordsLE bytes (64 + 4 * nMuNatOf bytes + 12 * n2Of bytes) (nCoeffsOf bytes).toNat

/-- Group the interleaved `offsetAndLength` buffer into `(offset, length)` pairs
(`offsetAndLength[2*i]`, `offsetAndLength[2*i+1]`). -/
def toPairs : List Int → List (Int × Int)
  | o :: l :: rest => (o, l) :: toPairs rest
  | _ => []

/-- The offset/length section: `2 * nMu * nMu` ints following the `cdf` section,
grouped into pairs. -/
def pairsOf (bytes : List Nat) : List (Int × Int) :=
  toPairs ((wordsLE bytes (64 + 4 * nMuNatOf bytes + 4 * n2Of bytes) (2 * n2Of bytes)).map int32)

/-- In-memory `FourierBSDFTable` (declared in `core/reflection.h`, populated by
`FourierBSDFTable::Read`).  Array members are `Option` lists: `none` models a null
pointer, `some` an allocated array.  Float arrays hold raw 32-bit words; `recip`
holds the computed `ℚ` reciprocals. -/
structure FourierBSDFTable where
  nMu : Int
  mMax : Int
  nChannels : Int
  eta : Nat
  mu : Option (List Nat)
  cdf : Option (List Nat)
  a0 : Option (List Nat)
  aOffset : Option (List Int)
  m : Option (List Int)
  a : Option (List Nat)
  recip : Option (List ℚ)
deriving DecidableEq

/-- A table whose scalar fields are zero and whose array members are all null. -/
def initTable : FourierBSDFTable := ⟨0, 0, 0, 0, none, none, none, none, none, none, none⟩

/-- How one call to `FourierBSDFTable::Read` terminates:
`ok` = `return true`; `fail` = `goto fail; return false`;
`thrown` = `operator new[]` throws `std::bad_array_new_length` (negative element
count), propagating out of the function; `ub` = the execution performs an
out-of-bounds read `a[offset]` and has undefined behaviour. -/
inductive LoadOutcome
  | ok
  | fail
  | thrown
  | ub
deriving DecidableEq

/-- The diagnostics produced via `Error(...)`: the loader has exactly two messages,
each carrying only the file path. -/
inductive ErrMsg
  | unableToOpen (filename : String)
  | incompatibleFormat (filename : String)
deriving DecidableEq

/-- Observable result of one call to `FourierBSDFTable::Read`: termination kind, the
caller's table as the call leaves it, whether `fopen` succeeded, whether `fclose` was
executed before control left the function, and the `Error` message emitted (if any). -/
structure ReadResult where
  outcome : LoadOutcome
  table : FourierBSDFTable
  opened : Bool
  closed : Bool
  errMsg : Option ErrMsg
deriving DecidableEq

/-- The derivation loop (fourier.cpp lines 169-177): for each pair `(offset, length)`
record `aOffset[i] = offset`, `m[i] = length`, and
`a0[i] = length > 0 ? a[offset] : 0`.  Reading `a[offset]` with `offset` outside
`[0, a.length)` is undefined behaviour, reported as `none`. -/
def deriveA0 (a : List Nat) : List (Int × Int) → Option (List Int × List Int × List Nat)
  | [] => some ([], [], [])
  | (off, len) :: rest =>
    if 0 < len ∧ ¬(0 ≤ off ∧ off < (a.length : Int)) then none
    else
      match deriveA0 a rest with
      | none => none
      | some r =>
        some (off :: r.1, len :: r.2.1, (if 0 < len then a.getD off.toNat 0 else 0) :: r.2.2)

/-- Caller table after `read32(&bsdfTable->nMu, 1)` succeeded (fourier.cpp line 141). -/
def headerT1 (bytes : List Nat) (big : Bool) (t : FourierBSDFTable) : FourierBSDFTable :=
  { t with nMu := int32 (hostWord big bytes 12) }

/-- Caller table after `read32(&bsdfTable->mMax, 1)` succeeded (fourier.cpp line 142). -/
def headerT2 (bytes : List Nat) (big : Bool) (t : FourierBSDFTable) : FourierBSDFTable :=
  { headerT1 bytes big t with mMax := int32 (hostWord big bytes 20) }

/-- Caller table after `read32(&bsdfTable->nChannels, 1)` succeeded (line 143). -/
def headerT3 (bytes : List Nat) (big : Bool) (t : FourierBSDFTable) : FourierBSDFTable :=
  { headerT2 bytes big t with nChannels := int32 (hostWord big bytes 24) }

/-- Caller table after `readfloat(&bsdfTable->eta, 1)` succeeded (line 144). -/
def headerT4 (bytes : List Nat) (big : Bool) (t : FourierBSDFTable) : FourierBSDFTable :=
  { headerT3 bytes big t with eta := hostWord big bytes 44 }

/-- Magic comparison, header reads and validation (fourier.cpp lines 132-153).
Returns `inl t` when the function takes `goto fail` (with `t` the caller table as
written so far), or `inr (nCoeffs, t)` when the header was read and validated;
`flags`, `nCoeffs` and `nBases` are locals in the source, `nMu`, `mMax`,
`nChannels`, `eta` are table fields.  Each `read32`/`readfloat` fails exactly when
fewer bytes remain than requested (the header reads cover file offsets 8-63, so
the successive cutoffs are 12, 16, 20, 24, 28, 32, 44, 48, 64); a table field is
only written once its own read succeeded. -/
def parseHeader (bytes : List Nat) (big : Bool) (t : FourierBSDFTable) :
    FourierBSDFTable ⊕ Int × FourierBSDFTable :=
  if bytes.length < 8 ∨ (bytes.take 8).map (fun b => b % 256) ≠ magicBytes then .inl t
  else if bytes.length < 12 then .inl t
  else if bytes.length < 16 then .inl t
  else if bytes.length < 20 then .inl (headerT1 bytes big t)
  else if bytes.length < 24 then .inl (headerT1 bytes big t)
  else if bytes.length < 28 then .inl (headerT2 bytes big t)
  else if bytes.length < 32 then .inl (headerT3 bytes big t)
  else if bytes.length < 44 then .inl (headerT3 bytes big t)
  else if bytes.length < 48 then .inl (headerT3 bytes big t)
  else if bytes.length < 64 then .inl (headerT4 bytes big t)
  else if int32 (hostWord big bytes 8) ≠ 1 ∨
      (int32 (hostWord big bytes 24) ≠ 1 ∧ int32 (hostWord big bytes 24) ≠ 3) ∨
      int32 (hostWord big bytes 28) ≠ 1 then .inl (headerT4 bytes big t)
  else .inr (int32 (hostWord big bytes 16), headerT4 bytes big t)

/-- Table after the allocations of lines 155-160 (`mu`, `cdf`, `a0`, `aOffset`,
`m`); fresh arrays are modelled zero-filled (their C contents are indeterminate
until overwritten; no claim depends on them). -/
def allocT (t : FourierBSDFTable) : FourierBSDFTable :=
  { t with mu := some (List.replicate t.nMu.toNat 0),
           cdf := some (List.replicate (t.nMu.toNat * t.nMu.toNat) 0),
           a0 := some (List.replicate (t.nMu.toNat * t.nMu.toNat) 0),
           aOffset := some (List.replicate (t.nMu.toNat * t.nMu.toNat) 0),
           m := some (List.replicate (t.nMu.toNat * t.nMu.toNat) 0) }

/-- Table after `a = new Float[nCoeffs]` (line 161) also succeeded. -/
def allocAT (nCoeffs : Int) (t : FourierBSDFTable) : FourierBSDFTable :=
  { allocT t with a := some (List.replicate nCoeffs.toNat 0) }

/-- Table after the `mu` bulk read succeeded (line 163). -/
def bodyT1 (bytes : List Nat) (big : Bool) (nCoeffs : Int) (t : FourierBSDFTable) :
    FourierBSDFTable :=
  { allocAT nCoeffs t with mu := some (hostWords big bytes 64 t.nMu.toNat) }

/-- Table after the `cdf` bulk read succeeded (line 164). -/
def bodyT2 (bytes : List Nat) (big : Bool) (nCoeffs : Int) (t : FourierBSDFTable) :
    FourierBSDFTable :=
  { bodyT1 bytes big nCoeffs t with
      cdf := some (hostWords big bytes (64 + 4 * t.nMu.toNat) (t.nMu.toNat * t.nMu.toNat)) }

/-- The coefficient section as read by line 166 (`a`, `nCoeffs` words following
the offset/length section). -/
def bodyAW (bytes : List Nat) (big : Bool) (nCoeffs : Int) (t : FourierBSDFTable) :
    List Nat :=
  hostWords big bytes (64 + 4 * t.nMu.toNat + 12 * (t.nMu.toNat * t.nMu.toNat)) nCoeffs.toNat

/-- The offset/length section as read by line 165, grouped into pairs. -/
def bodyPairs (bytes : List Nat) (big : Bool) (t : FourierBSDFTable) : List (Int × Int) :=
  toPairs (List.map int32
    (hostWords big bytes (64 + 4 * t.nMu.toNat + 4 * (t.nMu.toNat * t.nMu.toNat))
      (2 * (t.nMu.toNat * t.nMu.toNat))))

/-- Table after the coefficient bulk read succeeded (line 166). -/
def bodyT3 (bytes : List Nat) (big : Bool) (nCoeffs : Int) (t : FourierBSDFTable) :
    FourierBSDFTable :=
  { bodyT2 bytes big nCoeffs t with a := some (bodyAW bytes big nCoeffs t) }

/-- Table after the derivation loop of lines 169-177 wrote `aOffset`, `m`, `a0`. -/
def bodyT4 (bytes : List Nat) (big : Bool) (nCoeffs : Int) (t : FourierBSDFTable)
    (r : List Int × List Int × List Nat) : FourierBSDFTable :=
  { bodyT3 bytes big nCoeffs t with aOffset := some r.1, m := some r.2.1, a0 := some r.2.2 }

/-- Final table: lines 179-181 allocate and fill `recip[i] = 1 / (Float)i`. -/
def bodyT5 (bytes : List Nat) (big : Bool) (nCoeffs : Int) (t : FourierBSDFTable)
    (r : List Int × List Int × List Nat) : FourierBSDFTable :=
  { bodyT4 bytes big nCoeffs t r with
      recip := some ((List.range t.mMax.toNat).map fun i : Nat => 1 / (i : ℚ)) }

/-- Allocations, bulk-section reads, the derivation loop and the reciprocal table
(fourier.cpp lines 155-184).  A negative element count makes `new[]` throw
(`.thrown`); a short bulk read takes `goto fail` (`.fail`); an out-of-bounds
`a[offset]` in the derivation loop is undefined behaviour (`.ub`).  The single
offset/length buffer (`offsetAndLength`) and the coefficient positions give the
cumulative length cutoffs `64 + 4*nMu`, `+ 4*nMu²`, `+ 8*nMu²`, `+ 4*nCoeffs`. -/
def readBody (bytes : List Nat) (big : Bool) (nCoeffs : Int) (t : FourierBSDFTable) :
    LoadOutcome × FourierBSDFTable :=
  if t.nMu < 0 then (.thrown, t)
  else if nCoeffs < 0 then (.thrown, allocT t)
  else if bytes.length < 64 + 4 * t.nMu.toNat then (.fail, allocAT nCoeffs t)
  else if bytes.length < 64 + 4 * t.nMu.toNat + 4 * (t.nMu.toNat * t.nMu.toNat) then
    (.fail, bodyT1 bytes big nCoeffs t)
  else if bytes.length < 64 + 4 * t.nMu.toNat + 12 * (t.nMu.toNat * t.nMu.toNat) then
    (.fail, bodyT2 bytes big nCoeffs t)
  else if bytes.length <
      64 + 4 * t.nMu.toNat + 12 * (t.nMu.toNat * t.nMu.toNat) + 4 * nCoeffs.toNat then
    (.fail, bodyT2 bytes big nCoeffs t)
  else
    match deriveA0 (bodyAW bytes big nCoeffs t) (bodyPairs bytes big t) with
    | none => (.ub, bodyT3 bytes big nCoeffs t)
    | some r =>
      if t.mMax < 0 then (.thrown, bodyT4 bytes big nCoeffs t r)
      else (.ok, bodyT5 bytes big nCoeffs t r)

/-- Lines 99-100: `bsdfTable->mu = bsdfTable->cdf = bsdfTable->a = nullptr;`
`bsdfTable->aOffset = bsdfTable->m = nullptr;` — note that neither `a0`, `recip`
nor any scalar field is reset. -/
def nullArrays (t : FourierBSDFTable) : FourierBSDFTable :=
  { t with mu := none, cdf := none, a := none, aOffset := none, m := none }

/-- `FourierBSDFTable::Read` (fourier.cpp lines 97-192).  `contents = none` models a
failing `fopen` (line 104: `Error` and `return false` before any handle exists).
On both `return` statements (lines 183-184 success, 186-191 failure) `fclose` runs
first; on a `thrown`/`ub` termination it does not. -/
def FourierBSDFTable.read (filename : String) (contents : Option (List Nat)) (big : Bool)
    (t0 : FourierBSDFTable) : ReadResult :=
  match contents with
  | none =>
    { outcome := .fail, table := nullArrays t0, opened := false, closed := false,
      errMsg := some (.unableToOpen filename) }
  | some bytes =>
    match parseHeader bytes big (nullArrays t0) with
    | .inl tf =>
      { outcome := .fail, table := tf, opened := true, closed := true,
        errMsg := some (.incompatibleFormat filename) }
    | .inr (nCoeffs, th) =>
      match readBody bytes big nCoeffs th with
      | (.ok, tb) =>
        { outcome := .ok, table := tb, opened := true, closed := true, errMsg := none }
      | (.fail, tb) =>
        { outcome := .fail, table := tb, opened := true, closed := true,
          errMsg := some (.incompatibleFormat filename) }
      | (.thrown, tb) =>
        { outcome := .thrown, table := tb, opened := true, closed := false, errMsg := none }
      | (.ub, tb) =>
        { outcome := .ub, table := tb, opened := true, closed := false, errMsg := none }

/-- The `ReadResult` corresponding to each way the opened-file part of `Read` can
terminate (success and `goto fail` run `fclose`; a thrown allocation error or
undefined behaviour does not). -/
def mkRes (filename : String) : LoadOutcome → FourierBSDFTable → ReadResult
  | .ok, tb => { outcome := .ok, table := tb, opened := true, closed := true, errMsg := none }
  | .fail, tb =>
    { outcome := .fail, table := tb, opened := true, closed := true,
      errMsg := some (.incompatibleFormat filename) }
  | .thrown, tb =>
    { outcome := .thrown, table := tb, opened := true, closed := false, errMsg := none }
  | .ub, tb =>
    { outcome := .ub, table := tb, opened := true, closed := false, errMsg := none }

/-- The guard of `FourierMaterial::ComputeScatteringFunctions` (fourier.cpp lines
200-210): a `FourierBSDF` is added to the surface's BSDF exactly when
`bsdfTable.nChannels > 0` — the comment there calls this "a proxy for checking
whether the table was successfully read from the file". -/
def addsFourierBSDF (t : FourierBSDFTable) : Bool := decide (0 < t.nChannels)

/-- The C1 / section-3 invariant, stated on a loaded table: every stored
offset/length pair satisfies `0 ≤ offset` and `offset + length ≤ nCoeffs`
(the coefficient buffer length). -/
def coeffBoundsOk (t : FourierBSDFTable) : Bool :=
  match t.aOffset, t.m, t.a with
  | some os, some ls, some aw =>
    (os.zip ls).all fun p => decide (0 ≤ p.1 ∧ p.1 + p.2 ≤ (aw.length : Int))
  | _, _, _ => true

/-- Helper: the table component of a `parseHeader` result. -/
def headerResTable : FourierBSDFTable ⊕ Int × FourierBSDFTable → FourierBSDFTable
  | .inl tf => tf
  | .inr p => p.2

/-- Little-endian bytes of a 32-bit value, for building concrete test files. -/
def w32 (v : Nat) : List Nat := [v % 256, v / 256 % 256, v / 65536 % 256, v / 16777216 % 256]

/-- A 64-byte header with the given field values (all reserved words zero). -/
def mkHeader (flags nMu nCoeffs mMax nChannels nBases : Nat) : List Nat :=
  magicBytes ++ w32 flags ++ w32 nMu ++ w32 nCoeffs ++ w32 mMax ++ w32 nChannels ++
    w32 nBases ++ w32 0 ++ w32 0 ++ w32 0 ++ w32 0 ++ w32 0 ++ w32 0 ++ w32 0 ++ w32 0

/-- Minimal well-formed file: `nMu = 0`, `nCoeffs = 0`, `mMax = 0`, one channel,
one basis — the header is the whole file. -/
def fileF0 : List Nat := mkHeader 1 0 0 0 1 1

/-- `fileF0` with every 32-bit word after the 8-byte magic written in the opposite
byte order. -/
def swapWords4 : List Nat → List Nat
  | b0 :: b1 :: b2 :: b3 :: rest => b3 :: b2 :: b1 :: b0 :: swapWords4 rest
  | l => l

/-- A file re-serialized with the opposite byte order: the 8 magic bytes are
single-byte fields, every later 32-bit word has its bytes reversed. -/
def oppositeByteOrder (bytes : List Nat) : List Nat :=
  bytes.take 8 ++ swapWords4 (bytes.drop 8)

/-- File with `nMu = 1`, `nCoeffs = 1`, `mMax = 3`: one mu word (0), one cdf word
(0), one offset/length pair `(0, 5)` whose length overruns the coefficient buffer,
and one coefficient word (7). -/
def fileF1 : List Nat :=
  mkHeader 1 1 1 3 1 1 ++ w32 0 ++ w32 0 ++ w32 0 ++ w32 5 ++ w32 7

/-- File with a valid header (`nMu = 1`, `nCoeffs = 1`, `mMax = 1`, one channel, one
basis) but truncated immediately after the header: every bulk section is missing. -/
def fileF2 : List Nat := mkHeader 1 1 1 1 1 1

/-- File whose header declares `nMu = -1` (word `0xFFFFFFFF`) and otherwise passes
validation. -/
def fileF3 : List Nat := mkHeader 1 4294967295 0 0 1 1

/-- File with a valid header except `nBases = 2` (texturing, unsupported). -/
def fileF4 : List Nat := mkHeader 1 0 0 0 1 2

/-- A junk file: a single zero byte (fails the magic/version check). -/
def fileF5 : List Nat := [0]

/-- Hypothesis bundle: the magic matched and the 64-byte header was present and
passed validation (`flags == 1`, `nChannels ∈ {1,3}`, `nBases == 1`). -/
def headerAccepted (bytes : List Nat) : Prop :=
  (bytes.take 8).map (fun b => b % 256) = magicBytes ∧ 64 ≤ bytes.length ∧
    flagsOf bytes = 1 ∧ (nChannelsOf bytes = 1 ∨ nChannelsOf bytes = 3) ∧
    nBasesOf bytes = 1

instance (bytes : List Nat) : Decidable (headerAccepted bytes) := by
  unfold headerAccepted; infer_instance

/-- Total byte count the four bulk sections require beyond which nothing is read:
header + mu + cdf + offset/length pairs + coefficients. -/
def bulkBytesNeeded (bytes : List Nat) : Nat :=
  64 + 4 * nMuNatOf bytes + 12 * n2Of bytes + 4 * (nCoeffsOf bytes).toNat

theorem byteAt_lt (bytes : List Nat) (i : Nat) : byteAt bytes i < 256 :=
  Nat.mod_lt _ (by norm_num)

/-- `read32` decodes the same (little-endian) value on either host: the big-endian
native interpretation followed by `__builtin_bswap32` equals the little-endian
interpretation. -/
theorem hostWord_eq (big : Bool) (bytes : List Nat) (p : Nat) :
    hostWord big bytes p = leW bytes p := by
  cases big with
  | false => rfl
  | true =>
    have h0 := byteAt_lt bytes p
    have h1 := byteAt_lt bytes (p + 1)
    have h2 := byteAt_lt bytes (p + 2)
    have h3 := byteAt_lt bytes (p + 3)
    simp only [hostWord, if_pos, beW, bswap32, leW]
    omega

theorem hostWords_eq (big : Bool) (bytes : List Nat) (p count : Nat) :
    hostWords big bytes p count = wordsLE bytes p count := by
  unfold hostWords wordsLE
  simp only [hostWord_eq]

theorem headerT1_eq (bytes : List Nat) (big : Bool) (t : FourierBSDFTable) :
    headerT1 bytes big t = { t with nMu := nMuOf bytes } := by
  unfold headerT1 nMuOf
  rw [hostWord_eq]

theorem headerT2_eq (bytes : List Nat) (big : Bool) (t : FourierBSDFTable) :
    headerT2 bytes big t = { t with nMu := nMuOf bytes, mMax := mMaxOf bytes } := by
  unfold headerT2 mMaxOf
  rw [headerT1_eq, hostWord_eq]

theorem headerT3_eq (bytes : List Nat) (big : Bool) (t : FourierBSDFTable) :
    headerT3 bytes big t =
      { t with nMu := nMuOf bytes, mMax := mMaxOf bytes,
               nChannels := nChannelsOf bytes } := by
  unfold headerT3 nChannelsOf
  rw [headerT2_eq, hostWord_eq]

theorem headerT4_eq (bytes : List Nat) (big : Bool) (t : FourierBSDFTable) :
    headerT4 bytes big t =
      { t with nMu := nMuOf bytes, mMax := mMaxOf bytes,
               nChannels := nChannelsOf bytes, eta := etaWordOf bytes } := by
  unfold headerT4 etaWordOf
  rw [headerT3_eq, hostWord_eq]

theorem parseHeader_host (bytes : List Nat) (big : Bool) (t : FourierBSDFTable) :
    parseHeader bytes big t = parseHeader bytes false t := by
  unfold parseHeader
  simp only [hostWord_eq, headerT1_eq, headerT2_eq, headerT3_eq, headerT4_eq]

theorem bodyAW_eq (bytes : List Nat) (big : Bool) (nCoeffs : Int)
    (t : FourierBSDFTable) :
    bodyAW bytes big nCoeffs t =
      wordsLE bytes (64 + 4 * t.nMu.toNat + 12 * (t.nMu.toNat * t.nMu.toNat))
        nCoeffs.toNat := by
  unfold bodyAW
  rw [hostWords_eq]

theorem bodyPairs_eq (bytes : List Nat) (big : Bool) (t : FourierBSDFTable) :
    bodyPairs bytes big t =
      toPairs (List.map int32
        (wordsLE bytes (64 + 4 * t.nMu.toNat + 4 * (t.nMu.toNat * t.nMu.toNat))
          (2 * (t.nMu.toNat * t.nMu.toNat)))) := by
  unfold bodyPairs
  rw [hostWords_eq]

theorem bodyT1_eq (bytes : List Nat) (big : Bool) (nCoeffs : Int)
    (t : FourierBSDFTable) :
    bodyT1 bytes big nCoeffs t =
      { allocAT nCoeffs t with mu := some (wordsLE bytes 64 t.nMu.toNat) } := by
  unfold bodyT1
  rw [hostWords_eq]

theorem bodyT2_eq (bytes : List Nat) (big : Bool) (nCoeffs : Int)
    (t : FourierBSDFTable) :
    bodyT2 bytes big nCoeffs t =
      { allocAT nCoeffs t with
          mu := some (wordsLE bytes 64 t.nMu.toNat),
          cdf := some (wordsLE bytes (64 + 4 * t.nMu.toNat)
            (t.nMu.toNat * t.nMu.toNat)) } := by
  unfold bodyT2
  rw [bodyT1_eq, hostWords_eq]

theorem bodyT3_eq (bytes : List Nat) (big : Bool) (nCoeffs : Int)
    (t : FourierBSDFTable) :
    bodyT3 bytes big nCoeffs t =
      { allocAT nCoeffs t with
          mu := some (wordsLE bytes 64 t.nMu.toNat),
          cdf := some (wordsLE bytes (64 + 4 * t.nMu.toNat) (t.nMu.toNat * t.nMu.toNat)),
          a := some (wordsLE bytes (64 + 4 * t.nMu.toNat + 12 * (t.nMu.toNat * t.nMu.toNat))
            nCoeffs.toNat) } := by
  unfold bodyT3
  rw [bodyT2_eq, bodyAW_eq]

theorem bodyT4_eq (bytes : List Nat) (big : Bool) (nCoeffs : Int) (t : FourierBSDFTable)
    (r : List Int × List Int × List Nat) :
    bodyT4 bytes big nCoeffs t r =
      { allocAT nCoeffs t with
          mu := some (wordsLE bytes 64 t.nMu.toNat),
          cdf := some (wordsLE bytes (64 + 4 * t.nMu.toNat) (t.nMu.toNat * t.nMu.toNat)),
          a := some (wordsLE bytes (64 + 4 * t.nMu.toNat + 12 * (t.nMu.toNat * t.nMu.toNat))
            nCoeffs.toNat),
          aOffset := some r.1, m := some r.2.1, a0 := some r.2.2 } := by
  unfold bodyT4
  rw [bodyT3_eq]

theorem bodyT5_eq (bytes : List Nat) (big : Bool) (nCoeffs : Int) (t : FourierBSDFTable)
    (r : List Int × List Int × List Nat) :
    bodyT5 bytes big nCoeffs t r =
      { allocAT nCoeffs t with
          mu := some (wordsLE bytes 64 t.nMu.toNat),
          cdf := some (wordsLE bytes (64 + 4 * t.nMu.toNat) (t.nMu.toNat * t.nMu.toNat)),
          a := some (wordsLE bytes (64 + 4 * t.nMu.toNat + 12 * (t.nMu.toNat * t.nMu.toNat))
            nCoeffs.toNat),
          aOffset := some r.1, m := some r.2.1, a0 := some r.2.2,
          recip := some ((List.range t.mMax.toNat).map fun i : Nat => 1 / (i : ℚ)) } := by
  unfold bodyT5
  rw [bodyT4_eq]

theorem readBody_host (bytes : List Nat) (big : Bool) (nCoeffs : Int)
    (t : FourierBSDFTable) :
    readBody bytes big nCoeffs t = readBody bytes false nCoeffs t := by
  unfold readBody
  simp only [bodyAW_eq, bodyPairs_eq, bodyT1_eq, bodyT2_eq, bodyT3_eq, bodyT4_eq,
    bodyT5_eq]

theorem read_host_indep (filename : String) (contents : Option (List Nat)) (big : Bool)
    (t0 : FourierBSDFTable) :
    FourierBSDFTable.read filename contents big t0 =
      FourierBSDFTable.read filename contents false t0 := by
  unfold FourierBSDFTable.read
  cases contents with
  | none => rfl
  | some bytes => simp only [parseHeader_host, readBody_host]

/-- Unfolding of `read` on an opened file, for case analysis on the header result. -/
theorem read_some_eq (filename : String) (bytes : List Nat) (big : Bool)
    (t0 : FourierBSDFTable) :
    FourierBSDFTable.read filename (some bytes) big t0 =
      (match parseHeader bytes big (nullArrays t0) with
      | .inl tf =>
        { outcome := .fail, table := tf, opened := true, closed := true,
          errMsg := some (.incompatibleFormat filename) }
      | .inr (nCoeffs, th) =>
        match readBody bytes big nCoeffs th with
        | (.ok, tb) =>
          { outcome := .ok, table := tb, opened := true, closed := true, errMsg := none }
        | (.fail, tb) =>
          { outcome := .fail, table := tb, opened := true, closed := true,
            errMsg := some (.incompatibleFormat filename) }
        | (.thrown, tb) =>
          { outcome := .thrown, table := tb, opened := true, closed := false,
            errMsg := none }
        | (.ub, tb) =>
          { outcome := .ub, table := tb, opened := true, closed := false,
            errMsg := none } : ReadResult) := rfl

/-- What the derivation loop produces: `aOffset` and `m` are the file's offset and
length columns verbatim; `a0[k] = a[offset_k]` when `length_k > 0` (the access being
in bounds, else the execution would be undefined) and `a0[k] = 0` otherwise. -/
theorem deriveA0_spec (a : List Nat) (ps : List (Int × Int)) (os ls : List Int)
    (zs : List Nat) (h : deriveA0 a ps = some (os, ls, zs)) :
    os = ps.map Prod.fst ∧ ls = ps.map Prod.snd ∧ zs.length = ps.length ∧
    ∀ k : Nat,
      (0 < ls.getD k 0 →
        0 ≤ os.getD k 0 ∧ (os.getD k 0).toNat < a.length ∧
          zs.getD k 0 = a.getD (os.getD k 0).toNat 0) ∧
      (ls.getD k 0 ≤ 0 → zs.getD k 0 = 0) := by
  induction ps generalizing os ls zs with
  | nil =>
    simp only [deriveA0, Option.some.injEq, Prod.mk.injEq] at h
    obtain ⟨ho, hl, hz⟩ := h
    subst ho; subst hl; subst hz
    refine ⟨rfl, rfl, rfl, fun k => ⟨fun hk => ?_, fun _ => ?_⟩⟩
    · simp [List.getD] at hk
    · simp [List.getD]
  | cons p rest ih =>
    obtain ⟨off, len⟩ := p
    simp only [deriveA0] at h
    split at h
    · exact absurd h (by simp)
    · rename_i hcond
      split at h
      · exact absurd h (by simp)
      · rename_i r heq
        simp only [Option.some.injEq, Prod.mk.injEq] at h
        obtain ⟨ho, hl, hz⟩ := h
        subst ho; subst hl; subst hz
        obtain ⟨iho, ihl, ihz, ihk⟩ := ih r.1 r.2.1 r.2.2 heq
        refine ⟨by simp [iho], by simp [ihl], by simp [ihz], fun k => ?_⟩
        cases k with
        | zero =>
          refine ⟨fun hk => ?_, fun hk => ?_⟩
          · simp only [List.getD_cons_zero] at hk ⊢
            have hin : 0 ≤ off ∧ off < (a.length : Int) := by
              by_contra hno
              exact hcond ⟨hk, hno⟩
            exact ⟨hin.1, by omega, by simp [hk]⟩
          · simp only [List.getD_cons_zero] at hk ⊢
            simp [show ¬ 0 < len by omega]
        | succ n =>
          simpa only [List.getD_cons_succ] using ihk n

/-- If `parseHeader` hands control to the body, the magic matched, the full 64-byte
header was present, validation passed, and the table/`nCoeffs` carry the decoded
header fields. -/
theorem parseHeader_inr (bytes : List Nat) (big : Bool) (t : FourierBSDFTable)
    (nc : Int) (th : FourierBSDFTable)
    (h : parseHeader bytes big t = .inr (nc, th)) :
    headerAccepted bytes ∧ nc = nCoeffsOf bytes ∧
    th = { t with nMu := nMuOf bytes, mMax := mMaxOf bytes,
                  nChannels := nChannelsOf bytes, eta := etaWordOf bytes } := by
  rw [parseHeader] at h
  by_cases h1 : bytes.length < 8 ∨ (bytes.take 8).map (fun b => b % 256) ≠ magicBytes
  · rw [if_pos h1] at h; exact Sum.noConfusion h
  rw [if_neg h1] at h
  by_cases h2 : bytes.length < 12
  · rw [if_pos h2] at h; exact Sum.noConfusion h
  rw [if_neg h2] at h
  by_cases h3 : bytes.length < 16
  · rw [if_pos h3] at h; exact Sum.noConfusion h
  rw [if_neg h3] at h
  by_cases h4 : bytes.length < 20
  · rw [if_pos h4] at h; exact Sum.noConfusion h
  rw [if_neg h4] at h
  by_cases h5 : bytes.length < 24
  · rw [if_pos h5] at h; exact Sum.noConfusion h
  rw [if_neg h5] at h
  by_cases h6 : bytes.length < 28
  · rw [if_pos h6] at h; exact Sum.noConfusion h
  rw [if_neg h6] at h
  by_cases h7 : bytes.length < 32
  · rw [if_pos h7] at h; exact Sum.noConfusion h
  rw [if_neg h7] at h
  by_cases h8 : bytes.length < 44
  · rw [if_pos h8] at h; exact Sum.noConfusion h
  rw [if_neg h8] at h
  by_cases h9 : bytes.length < 48
  · rw [if_pos h9] at h; exact Sum.noConfusion h
  rw [if_neg h9] at h
  by_cases h10 : bytes.length < 64
  · rw [if_pos h10] at h; exact Sum.noConfusion h
  rw [if_neg h10] at h
  by_cases h11 : int32 (hostWord big bytes 8) ≠ 1 ∨
      (int32 (hostWord big bytes 24) ≠ 1 ∧ int32 (hostWord big bytes 24) ≠ 3) ∨
      int32 (hostWord big bytes 28) ≠ 1
  · rw [if_pos h11] at h; exact Sum.noConfusion h
  rw [if_neg h11] at h
  simp only [Sum.inr.injEq, Prod.mk.injEq, headerT4_eq] at h
  push_neg at h1 h11
  simp only [hostWord_eq] at h11
  refine ⟨⟨h1.2, by omega, h11.1, ?_, h11.2.2⟩, ?_, h.2.symm⟩
  · rcases eq_or_ne (nChannelsOf bytes) 1 with he | he
    · exact Or.inl he
    · exact Or.inr (h11.2.1 he)
  · rw [← h.1, hostWord_eq]
    rfl

/-- Conversely, on any file whose header is present and valid, `parseHeader`
succeeds, decoding the header fields into the table (on either host). -/
theorem parseHeader_accepts (bytes : List Nat) (big : Bool) (t : FourierBSDFTable)
    (h : headerAccepted bytes) :
    parseHeader bytes big t = .inr (nCoeffsOf bytes,
      { t with nMu := nMuOf bytes, mMax := mMaxOf bytes,
               nChannels := nChannelsOf bytes, eta := etaWordOf bytes }) := by
  obtain ⟨hm, hlen, hf, hc, hb⟩ := h
  rw [parseHeader,
    if_neg (show ¬(bytes.length < 8 ∨ (bytes.take 8).map (fun b => b % 256) ≠ magicBytes)
      by push_neg; exact ⟨by omega, hm⟩),
    if_neg (show ¬bytes.length < 12 by omega),
    if_neg (show ¬bytes.length < 16 by omega),
    if_neg (show ¬bytes.length < 20 by omega),
    if_neg (show ¬bytes.length < 24 by omega),
    if_neg (show ¬bytes.length < 28 by omega),
    if_neg (show ¬bytes.length < 32 by omega),
    if_neg (show ¬bytes.length < 44 by omega),
    if_neg (show ¬bytes.length < 48 by omega),
    if_neg (show ¬bytes.length < 64 by omega),
    if_neg (show ¬(int32 (hostWord big bytes 8) ≠ 1 ∨
        (int32 (hostWord big bytes 24) ≠ 1 ∧ int32 (hostWord big bytes 24) ≠ 3) ∨
        int32 (hostWord big bytes 28) ≠ 1) by
      simp only [hostWord_eq]; push_neg; exact ⟨hf, fun hx => hc.resolve_left hx, hb⟩)]
  rw [headerT4_eq, hostWord_eq]
  rfl

/-- Once the magic matched and at least 28 bytes are present, the caller's table
holds the file's `nChannels` header value — on every `parseHeader` result,
accepted or rejected. -/
theorem parseHeader_nChannels (bytes : List Nat) (big : Bool) (t : FourierBSDFTable)
    (hm : (bytes.take 8).map (fun b => b % 256) = magicBytes)
    (hlen : 28 ≤ bytes.length) :
    (headerResTable (parseHeader bytes big t)).nChannels = nChannelsOf bytes := by
  rw [parseHeader,
    if_neg (show ¬(bytes.length < 8 ∨ (bytes.take 8).map (fun b => b % 256) ≠ magicBytes)
      by push_neg; exact ⟨by omega, hm⟩),
    if_neg (show ¬bytes.length < 12 by omega),
    if_neg (show ¬bytes.length < 16 by omega),
    if_neg (show ¬bytes.length < 20 by omega),
    if_neg (show ¬bytes.length < 24 by omega),
    if_neg (show ¬bytes.length < 28 by omega)]
  by_cases h7 : bytes.length < 32
  · rw [if_pos h7, headerT3_eq]; rfl
  rw [if_neg h7]
  by_cases h8 : bytes.length < 44
  · rw [if_pos h8, headerT3_eq]; rfl
  rw [if_neg h8]
  by_cases h9 : bytes.length < 48
  · rw [if_pos h9, headerT3_eq]; rfl
  rw [if_neg h9]
  by_cases h10 : bytes.length < 64
  · rw [if_pos h10, headerT4_eq]; rfl
  rw [if_neg h10]
  by_cases h11 : int32 (hostWord big bytes 8) ≠ 1 ∨
      (int32 (hostWord big bytes 24) ≠ 1 ∧ int32 (hostWord big bytes 24) ≠ 3) ∨
      int32 (hostWord big bytes 28) ≠ 1
  · rw [if_pos h11, headerT4_eq]; rfl
  rw [if_neg h11, headerT4_eq]
  rfl

/-- The body never touches `nChannels`: whatever happens after the header, the
caller's table keeps the header's channel count. -/
theorem readBody_nChannels (bytes : List Nat) (big : Bool) (nCoeffs : Int)
    (t : FourierBSDFTable) :
    ((readBody bytes big nCoeffs t).2).nChannels = t.nChannels := by
  unfold readBody
  repeat' split
  all_goals
    simp [allocT, allocAT, bodyT1, bodyT2, bodyT3, bodyT4, bodyT5]

/-- Success characterization of the body: all element counts were nonnegative, the
file held every bulk section in full, the derivation loop ran without an
out-of-bounds read, and the resulting table is `bodyT5`. -/
theorem readBody_ok (bytes : List Nat) (big : Bool) (nc : Int) (t tb : FourierBSDFTable)
    (h : readBody bytes big nc t = (.ok, tb)) :
    0 ≤ t.nMu ∧ 0 ≤ nc ∧ 0 ≤ t.mMax ∧
    64 + 4 * t.nMu.toNat + 12 * (t.nMu.toNat * t.nMu.toNat) + 4 * nc.toNat ≤
      bytes.length ∧
    ∃ r, deriveA0 (bodyAW bytes big nc t) (bodyPairs bytes big t) = some r ∧
      tb = bodyT5 bytes big nc t r := by
  rw [readBody] at h
  by_cases h1 : t.nMu < 0
  · rw [if_pos h1] at h; exact absurd h (by simp)
  rw [if_neg h1] at h
  by_cases h2 : nc < 0
  · rw [if_pos h2] at h; exact absurd h (by simp)
  rw [if_neg h2] at h
  by_cases h3 : bytes.length < 64 + 4 * t.nMu.toNat
  · rw [if_pos h3] at h; exact absurd h (by simp)
  rw [if_neg h3] at h
  by_cases h4 : bytes.length < 64 + 4 * t.nMu.toNat + 4 * (t.nMu.toNat * t.nMu.toNat)
  · rw [if_pos h4] at h; exact absurd h (by simp)
  rw [if_neg h4] at h
  by_cases h5 : bytes.length < 64 + 4 * t.nMu.toNat + 12 * (t.nMu.toNat * t.nMu.toNat)
  · rw [if_pos h5] at h; exact absurd h (by simp)
  rw [if_neg h5] at h
  by_cases h6 : bytes.length <
      64 + 4 * t.nMu.toNat + 12 * (t.nMu.toNat * t.nMu.toNat) + 4 * nc.toNat
  · rw [if_pos h6] at h; exact absurd h (by simp)
  rw [if_neg h6] at h
  rcases hD : deriveA0 (bodyAW bytes big nc t) (bodyPairs bytes big t) with _ | r
  · rw [hD] at h; simp at h
  rw [hD] at h
  dsimp only at h
  by_cases h7 : t.mMax < 0
  · rw [if_pos h7] at h; exact absurd h (by simp)
  rw [if_neg h7] at h
  simp only [Prod.mk.injEq] at h
  exact ⟨by omega, by omega, by omega, by omega, r, rfl, h.2.symm⟩

/-- When the header promised more bulk bytes than the file holds (and the element
counts are nonnegative so no allocation throws), the body takes `goto fail`. -/
theorem readBody_short (bytes : List Nat) (big : Bool) (nc : Int) (t : FourierBSDFTable)
    (h1 : 0 ≤ t.nMu) (h2 : 0 ≤ nc)
    (h3 : bytes.length <
      64 + 4 * t.nMu.toNat + 12 * (t.nMu.toNat * t.nMu.toNat) + 4 * nc.toNat) :
    (readBody bytes big nc t).1 = .fail := by
  rw [readBody, if_neg (show ¬t.nMu < 0 by omega), if_neg (show ¬nc < 0 by omega)]
  by_cases hA : bytes.length < 64 + 4 * t.nMu.toNat
  · rw [if_pos hA]
  rw [if_neg hA]
  by_cases hB : bytes.length < 64 + 4 * t.nMu.toNat + 4 * (t.nMu.toNat * t.nMu.toNat)
  · rw [if_pos hB]
  rw [if_neg hB]
  by_cases hC : bytes.length < 64 + 4 * t.nMu.toNat + 12 * (t.nMu.toNat * t.nMu.toNat)
  · rw [if_pos hC]
  rw [if_neg hC, if_pos (show bytes.length <
    64 + 4 * t.nMu.toNat + 12 * (t.nMu.toNat * t.nMu.toNat) + 4 * nc.toNat by omega)]

/-- Every run of `read` on an opened file goes through exactly one of: header
rejection, or a header acceptance followed by a body outcome wrapped by `mkRes`. -/
theorem read_cases (filename : String) (bytes : List Nat) (big : Bool)
    (t0 : FourierBSDFTable) :
    (∃ tf, parseHeader bytes big (nullArrays t0) = .inl tf ∧
      FourierBSDFTable.read filename (some bytes) big t0 =
        { outcome := .fail, table := tf, opened := true, closed := true,
          errMsg := some (.incompatibleFormat filename) }) ∨
    (∃ nc th oc tb, parseHeader bytes big (nullArrays t0) = .inr (nc, th) ∧
      readBody bytes big nc th = (oc, tb) ∧
      FourierBSDFTable.read filename (some bytes) big t0 = mkRes filename oc tb) := by
  rcases hph : parseHeader bytes big (nullArrays t0) with tf | p
  · exact Or.inl ⟨tf, rfl, by rw [read_some_eq, hph]⟩
  · obtain ⟨nc, th⟩ := p
    rcases hrb : readBody bytes big nc th with ⟨oc, tb⟩
    refine Or.inr ⟨nc, th, oc, tb, rfl, hrb, ?_⟩
    rw [read_some_eq, hph]
    dsimp only
    rw [hrb]
    cases oc <;> rfl

/-- Master characterization of a successful load: the header was accepted, every
count is nonnegative, the file holds all bulk sections, the derivation loop ran
without undefined behaviour, and every field of the resulting table is an explicit
function of the file bytes. -/
theorem read_ok_spec (filename : String) (bytes : List Nat) (big : Bool)
    (t0 : FourierBSDFTable)
    (hok : (FourierBSDFTable.read filename (some bytes) big t0).outcome = .ok) :
    headerAccepted bytes ∧ 0 ≤ nMuOf bytes ∧ 0 ≤ nCoeffsOf bytes ∧ 0 ≤ mMaxOf bytes ∧
    bulkBytesNeeded bytes ≤ bytes.length ∧
    ∃ r, deriveA0 (coeffWordsOf bytes) (pairsOf bytes) = some r ∧
      (FourierBSDFTable.read filename (some bytes) big t0).table =
        { nMu := nMuOf bytes, mMax := mMaxOf bytes, nChannels := nChannelsOf bytes,
          eta := etaWordOf bytes, mu := some (muWordsOf bytes),
          cdf := some (cdfWordsOf bytes), a0 := some r.2.2, aOffset := some r.1,
          m := some r.2.1, a := some (coeffWordsOf bytes),
          recip := some ((List.range (mMaxOf bytes).toNat).map fun i : Nat => 1 / (i : ℚ)) } := by
  rcases read_cases filename bytes big t0 with ⟨tf, hph, hread⟩ |
    ⟨nc, th, oc, tb, hph, hrb, hread⟩
  · rw [hread] at hok
    exact absurd hok (by simp)
  obtain ⟨hha, hnc, hth⟩ := parseHeader_inr bytes big (nullArrays t0) nc th hph
  cases oc with
  | fail => rw [hread] at hok; exact absurd hok (by simp [mkRes])
  | thrown => rw [hread] at hok; exact absurd hok (by simp [mkRes])
  | ub => rw [hread] at hok; exact absurd hok (by simp [mkRes])
  | ok =>
    obtain ⟨hm0, hc0, hx0, hlen0, r, hD, htb⟩ := readBody_ok bytes big nc th tb hrb
    subst hnc
    subst hth
    refine ⟨hha, by simpa using hm0, by simpa using hc0, by simpa using hx0, ?_, r, ?_, ?_⟩
    · simpa [bulkBytesNeeded, nMuNatOf, n2Of] using hlen0
    · rw [bodyAW_eq, bodyPairs_eq] at hD
      simpa [coeffWordsOf, pairsOf, nMuNatOf, n2Of] using hD
    · rw [hread]
      dsimp only [mkRes]
      rw [htb, bodyT5_eq]
      simp [allocAT, allocT, muWordsOf, cdfWordsOf, coeffWordsOf, nMuNatOf, n2Of,
        nullArrays]

/-- On any result of loading an opened file past a matched magic and a complete
`nChannels` read, the caller's table carries the file's `nChannels` value — whether
or not the load succeeded. -/
theorem read_table_nChannels (filename : String) (bytes : List Nat) (big : Bool)
    (t0 : FourierBSDFTable)
    (hm : (bytes.take 8).map (fun b => b % 256) = magicBytes)
    (hlen : 28 ≤ bytes.length) :
    (FourierBSDFTable.read filename (some bytes) big t0).table.nChannels =
      nChannelsOf bytes := by
  rcases read_cases filename bytes big t0 with ⟨tf, hph, hread⟩ |
    ⟨nc, th, oc, tb, hph, hrb, hread⟩
  · have h := parseHeader_nChannels bytes big (nullArrays t0) hm hlen
    rw [hph] at h
    rw [hread]
    exact h
  · have h := parseHeader_nChannels bytes big (nullArrays t0) hm hlen
    rw [hph] at h
    have hb := readBody_nChannels bytes big nc th
    rw [hrb] at hb
    rw [hread]
    cases oc <;> exact hb.trans h

/-- Whenever the loader returns (rather than propagating an exception or running
into undefined behaviour) after a successful open, the file handle was closed. -/
theorem read_closed_of_returns (filename : String) (contents : Option (List Nat))
    (big : Bool) (t0 : FourierBSDFTable)
    (h : (FourierBSDFTable.read filename contents big t0).outcome = .ok ∨
      (FourierBSDFTable.read filename contents big t0).outcome = .fail) :
    (FourierBSDFTable.read filename contents big t0).opened = true →
      (FourierBSDFTable.read filename contents big t0).closed = true := by
  cases contents with
  | none => intro hop; exact absurd hop (by simp [FourierBSDFTable.read])
  | some bytes =>
    intro _
    rcases read_cases filename bytes big t0 with ⟨tf, hph, hread⟩ |
      ⟨nc, th, oc, tb, hph, hrb, hread⟩
    · rw [hread]
    · rw [hread] at h ⊢
      cases oc with
      | ok => rfl
      | fail => rfl
      | thrown => rcases h with h | h <;> exact absurd h (by simp [mkRes])
      | ub => rcases h with h | h <;> exact absurd h (by simp [mkRes])

/-- A file whose (valid, nonnegative-count) header promises more bulk-section bytes
than the file contains makes the loader take the failure return, with the handle
closed. -/
theorem read_short_bulk (filename : String) (bytes : List Nat) (big : Bool)
    (t0 : FourierBSDFTable) (hha : headerAccepted bytes) (hMu : 0 ≤ nMuOf bytes)
    (hCo : 0 ≤ nCoeffsOf bytes) (hshort : bytes.length < bulkBytesNeeded bytes) :
    (FourierBSDFTable.read filename (some bytes) big t0).outcome = .fail ∧
      (FourierBSDFTable.read filename (some bytes) big t0).closed = true := by
  have hacc := parseHeader_accepts bytes big (nullArrays t0) hha
  rcases read_cases filename bytes big t0 with ⟨tf, hph, hread⟩ |
    ⟨nc, th, oc, tb, hph, hrb, hread⟩
  · exact Sum.noConfusion (hph.symm.trans hacc)
  · rw [hph] at hacc
    simp only [Sum.inr.injEq, Prod.mk.injEq] at hacc
    obtain ⟨hnc, hth⟩ := hacc
    have hfail : (readBody bytes big nc th).1 = .fail := by
      refine readBody_short bytes big nc th ?_ ?_ ?_
      · rw [hth]; simpa using hMu
      · rw [hnc]; exact hCo
      · rw [hth, hnc]
        simpa [bulkBytesNeeded, nMuNatOf, n2Of] using hshort
    rw [hrb] at hfail
    have hoc : oc = .fail := hfail
    subst hoc
    rw [hread]
    exact ⟨rfl, rfl⟩

/-- The only two diagnostics the loader can emit: the open-failure message, and the
single generic incompatible-format message used by every `goto fail` path; both
carry just the file path. -/
theorem read_errMsg_fail (filename : String) (bytes : List Nat) (big : Bool)
    (t0 : FourierBSDFTable)
    (h : (FourierBSDFTable.read filename (some bytes) big t0).outcome = .fail) :
    (FourierBSDFTable.read filename (some bytes) big t0).errMsg =
      some (.incompatibleFormat filename) := by
  rcases read_cases filename bytes big t0 with ⟨tf, hph, hread⟩ |
    ⟨nc, th, oc, tb, hph, hrb, hread⟩
  · rw [hread]
  · rw [hread] at h ⊢
    cases oc with
    | ok => exact absurd h (by simp [mkRes])
    | fail => rfl
    | thrown => exact absurd h (by simp [mkRes])
    | ub => exact absurd h (by simp [mkRes])

/-- C1 counterexample: `fileF1` declares `nCoeffs = 1` but its single pair carries
`(offset, length) = (0, 5)`; the loader accepts the file and stores the violating
pair, so `coeffOffset[k] + coeffCount[k] ≤ nCoeffs` fails on a successfully loaded
table — nothing is rejected. -/
theorem c1_counterexample :
    (FourierBSDFTable.read "pair.bsdf" (some fileF1) false initTable).outcome = .ok ∧
    (FourierBSDFTable.read "pair.bsdf" (some fileF1) false initTable).table.m = some [5] ∧
    (FourierBSDFTable.read "pair.bsdf" (some fileF1) false initTable).table.a =
      some [7] ∧
    coeffBoundsOk
      (FourierBSDFTable.read "pair.bsdf" (some fileF1) false initTable).table = false := by
  refine ⟨rfl, rfl, rfl, ?_⟩
  decide

/-- C1 as amended: the loader performs no offset/length validation — the pairs are
stored verbatim from the file; the only bound a defined (UB-free) successful
execution guarantees is `0 ≤ coeffOffset[k] < nCoeffs` for pairs with
`coeffCount[k] > 0`, forced by the dc-term read `a[offset]`. -/
theorem c1_amended_no_validation (filename : String) (bytes : List Nat) (big : Bool)
    (t0 : FourierBSDFTable)
    (hok : (FourierBSDFTable.read filename (some bytes) big t0).outcome = .ok) :
    ∃ os ls aw,
      (FourierBSDFTable.read filename (some bytes) big t0).table.aOffset = some os ∧
      (FourierBSDFTable.read filename (some bytes) big t0).table.m = some ls ∧
      (FourierBSDFTable.read filename (some bytes) big t0).table.a = some aw ∧
      os = (pairsOf bytes).map Prod.fst ∧ ls = (pairsOf bytes).map Prod.snd ∧
      ∀ k : Nat, 0 < ls.getD k 0 →
        0 ≤ os.getD k 0 ∧ (os.getD k 0).toNat < aw.length := by
  obtain ⟨hha, hMu, hCo, hMx, hlen, r, hD, htab⟩ := read_ok_spec filename bytes big t0 hok
  obtain ⟨ho, hl, hz, hk⟩ :=
    deriveA0_spec (coeffWordsOf bytes) (pairsOf bytes) r.1 r.2.1 r.2.2 hD
  exact ⟨r.1, r.2.1, coeffWordsOf bytes, by rw [htab], by rw [htab], by rw [htab],
    ho, hl, fun k hkpos => ⟨((hk k).1 hkpos).1, ((hk k).1 hkpos).2.1⟩⟩

/-- C1 amended, witness: on `fileF1` the pair `(0, 5)` is stored verbatim and its
offset is in bounds for the one-element coefficient buffer. -/
theorem c1_amended_witness :
    ∃ os ls aw,
      (FourierBSDFTable.read "pair.bsdf" (some fileF1) false initTable).table.aOffset =
        some os ∧
      (FourierBSDFTable.read "pair.bsdf" (some fileF1) false initTable).table.m =
        some ls ∧
      (FourierBSDFTable.read "pair.bsdf" (some fileF1) false initTable).table.a =
        some aw ∧
      os = (pairsOf fileF1).map Prod.fst ∧ ls = (pairsOf fileF1).map Prod.snd ∧
      ∀ k : Nat, 0 < ls.getD k 0 →
        0 ≤ os.getD k 0 ∧ (os.getD k 0).toNat < aw.length :=
  c1_amended_no_validation "pair.bsdf" fileF1 false initTable rfl

/-- C2 (code bug): on `fileF2` — a valid header truncated before the bulk
sections — the loader returns failure, yet the caller's table observably keeps the
header's `nChannels = 1`, freshly allocated arrays (`mu`, `a`) reachable through
it, and the `nChannels > 0` proxy of `ComputeScatteringFunctions` treats it as a
successfully loaded table.  The claim (and the proxy comment in the source) say
failure must leave nothing observable. -/
theorem c2_partial_state_on_failure :
    (FourierBSDFTable.read "trunc.bsdf" (some fileF2) false initTable).outcome = .fail ∧
    (FourierBSDFTable.read "trunc.bsdf" (some fileF2) false initTable).table.nChannels
      = 1 ∧
    (FourierBSDFTable.read "trunc.bsdf" (some fileF2) false initTable).table.mu =
      some [0] ∧
    (FourierBSDFTable.read "trunc.bsdf" (some fileF2) false initTable).table.a =
      some [0] ∧
    addsFourierBSDF
      (FourierBSDFTable.read "trunc.bsdf" (some fileF2) false initTable).table = true :=
  ⟨rfl, rfl, rfl, rfl, rfl⟩

/-- C3: the loader rejects (returns `false`, on the `goto fail` path) every file
whose first 8 bytes differ from `'S','C','A','T','F','U','N',0x01`, and every file
whose decoded header has `flags ≠ 1`, `nChannels ∉ {1,3}`, or `nBases ≠ 1` — in
particular `flags` with bit 1 set or `nBases = 2`. -/
theorem c3_rejects_unsupported (filename : String) (bytes : List Nat) (big : Bool)
    (t0 : FourierBSDFTable)
    (h : (bytes.take 8).map (fun b => b % 256) ≠ magicBytes ∨ flagsOf bytes ≠ 1 ∨
      (nChannelsOf bytes ≠ 1 ∧ nChannelsOf bytes ≠ 3) ∨ nBasesOf bytes ≠ 1) :
    (FourierBSDFTable.read filename (some bytes) big t0).outcome = .fail := by
  rcases read_cases filename bytes big t0 with ⟨tf, hph, hread⟩ |
    ⟨nc, th, oc, tb, hph, hrb, hread⟩
  · rw [hread]
  · exfalso
    obtain ⟨⟨hm, hlen, hf, hc, hb⟩, _, _⟩ :=
      parseHeader_inr bytes big (nullArrays t0) nc th hph
    rcases h with h | h | h | h
    · exact h hm
    · exact h hf
    · rcases hc with hc | hc
      · exact h.1 hc
      · exact h.2 hc
    · exact h hb

/-- C3 witness: `fileF4` (valid header except `nBases = 2`) is rejected. -/
theorem c3_witness :
    nBasesOf fileF4 ≠ 1 ∧
    (FourierBSDFTable.read "bases2.bsdf" (some fileF4) false initTable).outcome =
      .fail :=
  ⟨by decide, c3_rejects_unsupported "bases2.bsdf" fileF4 false initTable
    (Or.inr (Or.inr (Or.inr (by decide))))⟩

/-- C4: on every successfully loaded table, `a0[k] = a[aOffset[k]]` whenever
`m[k] > 0`, and `a0[k] = 0` whenever `m[k] = 0`. -/
theorem c4_dcTerm (filename : String) (bytes : List Nat) (big : Bool)
    (t0 : FourierBSDFTable)
    (hok : (FourierBSDFTable.read filename (some bytes) big t0).outcome = .ok) :
    ∃ os ls zs aw,
      (FourierBSDFTable.read filename (some bytes) big t0).table.aOffset = some os ∧
      (FourierBSDFTable.read filename (some bytes) big t0).table.m = some ls ∧
      (FourierBSDFTable.read filename (some bytes) big t0).table.a0 = some zs ∧
      (FourierBSDFTable.read filename (some bytes) big t0).table.a = some aw ∧
      ∀ k : Nat,
        (0 < ls.getD k 0 → zs.getD k 0 = aw.getD (os.getD k 0).toNat 0) ∧
        (ls.getD k 0 = 0 → zs.getD k 0 = 0) := by
  obtain ⟨hha, hMu, hCo, hMx, hlen, r, hD, htab⟩ := read_ok_spec filename bytes big t0 hok
  obtain ⟨ho, hl, hz, hk⟩ :=
    deriveA0_spec (coeffWordsOf bytes) (pairsOf bytes) r.1 r.2.1 r.2.2 hD
  refine ⟨r.1, r.2.1, r.2.2, coeffWordsOf bytes, by rw [htab], by rw [htab],
    by rw [htab], by rw [htab], fun k => ⟨fun hkpos => ((hk k).1 hkpos).2.2,
      fun hkz => (hk k).2 (by omega)⟩⟩

/-- C4 witness: on `fileF1` the pair has `m[0] = 5 > 0` and indeed
`a0[0] = a[0] = 7`. -/
theorem c4_witness :
    ∃ os ls zs aw,
      (FourierBSDFTable.read "pair.bsdf" (some fileF1) false initTable).table.aOffset =
        some os ∧
      (FourierBSDFTable.read "pair.bsdf" (some fileF1) false initTable).table.m =
        some ls ∧
      (FourierBSDFTable.read "pair.bsdf" (some fileF1) false initTable).table.a0 =
        some zs ∧
      (FourierBSDFTable.read "pair.bsdf" (some fileF1) false initTable).table.a =
        some aw ∧
      ∀ k : Nat,
        (0 < ls.getD k 0 → zs.getD k 0 = aw.getD (os.getD k 0).toNat 0) ∧
        (ls.getD k 0 = 0 → zs.getD k 0 = 0) :=
  c4_dcTerm "pair.bsdf" fileF1 false initTable rfl

/-- C5 counterexample: `fileF3` declares `nMu = -1` in an otherwise valid header;
`new Float[nMu]` (fourier.cpp line 155) then throws `std::bad_array_new_length`
(C++11 [expr.new]), so the loader exits after a successful `fopen` without ever
reaching either `fclose` — the handle is not closed on this exit path. -/
theorem c5_counterexample :
    (FourierBSDFTable.read "neg.bsdf" (some fileF3) false initTable).opened = true ∧
    (FourierBSDFTable.read "neg.bsdf" (some fileF3) false initTable).outcome =
      .thrown ∧
    (FourierBSDFTable.read "neg.bsdf" (some fileF3) false initTable).closed = false :=
  ⟨rfl, rfl, rfl⟩

/-- C5 as amended: on every *returning* exit (success or the `goto fail` return)
after a successful open the handle is closed, and in particular a short bulk
section (with a valid header and nonnegative counts, so no allocation throws)
produces the failure return with the handle closed; only the thrown-allocation
exit (negative count) and undefined behaviour escape without `fclose`. -/
theorem c5_amended_closed (filename : String) (contents : Option (List Nat))
    (bytes : List Nat) (big : Bool) (t0 : FourierBSDFTable) :
    (((FourierBSDFTable.read filename contents big t0).outcome = .ok ∨
        (FourierBSDFTable.read filename contents big t0).outcome = .fail) →
      (FourierBSDFTable.read filename contents big t0).opened = true →
      (FourierBSDFTable.read filename contents big t0).closed = true) ∧
    (headerAccepted bytes → 0 ≤ nMuOf bytes → 0 ≤ nCoeffsOf bytes →
      bytes.length < bulkBytesNeeded bytes →
      (FourierBSDFTable.read filename (some bytes) big t0).outcome = .fail ∧
        (FourierBSDFTable.read filename (some bytes) big t0).closed = true) :=
  ⟨fun h => read_closed_of_returns filename contents big t0 h,
   fun h1 h2 h3 h4 => read_short_bulk filename bytes big t0 h1 h2 h3 h4⟩

/-- C5 amended, witness: `fileF2` (valid header, every bulk section missing) fails
with the handle closed. -/
theorem c5_amended_witness :
    (FourierBSDFTable.read "trunc.bsdf" (some fileF2) false initTable).outcome =
      .fail ∧
    (FourierBSDFTable.read "trunc.bsdf" (some fileF2) false initTable).closed =
      true :=
  (c5_amended_closed "trunc.bsdf" (some fileF2) fileF2 false initTable).2
    (by decide) (by decide) (by decide) (by decide)

/-- C6 counterexample: the unsupported-feature failure (`fileF4`, `nBases = 2`) and
a plain format failure (`fileF5`, wrong magic) produce the *identical* diagnostic —
the single incompatible-format message carrying only the file path — so no
distinct `UnsupportedFeatureError` naming the violated constraint exists. -/
theorem c6_counterexample :
    (FourierBSDFTable.read "f.bsdf" (some fileF4) false initTable).errMsg =
      some (.incompatibleFormat "f.bsdf") ∧
    (FourierBSDFTable.read "f.bsdf" (some fileF5) false initTable).errMsg =
      some (.incompatibleFormat "f.bsdf") ∧
    (FourierBSDFTable.read "f.bsdf" (some fileF4) false initTable).errMsg =
      (FourierBSDFTable.read "f.bsdf" (some fileF5) false initTable).errMsg :=
  ⟨rfl, rfl, rfl⟩

/-- C6 as amended: the loader has exactly two diagnostics, both naming only the
file path — `unableToOpen` when `fopen` fails, and one generic incompatible-format
message shared by *every* `goto fail` path (magic mismatch, truncation, and
unsupported features alike); no message identifies the specific violated
constraint. -/
theorem c6_amended_single_message (filename : String) (bytes : List Nat) (big : Bool)
    (t0 : FourierBSDFTable) :
    (FourierBSDFTable.read filename none big t0).errMsg =
      some (.unableToOpen filename) ∧
    ((FourierBSDFTable.read filename (some bytes) big t0).outcome = .fail →
      (FourierBSDFTable.read filename (some bytes) big t0).errMsg =
        some (.incompatibleFormat filename)) :=
  ⟨rfl, fun h => read_errMsg_fail filename bytes big t0 h⟩

/-- C6 amended, witness: the `nBases = 2` rejection carries the generic message
with the file path. -/
theorem c6_amended_witness :
    (FourierBSDFTable.read "bases2.bsdf" (some fileF4) false initTable).errMsg =
      some (.incompatibleFormat "bases2.bsdf") :=
  (c6_amended_single_message "bases2.bsdf" fileF4 false initTable).2 (by decide)

/-- C7: on every successfully loaded table, `recip` holds exactly `mMax` entries
with `recip[k] = 1/k` for every `k ∈ [1, mMax)` (entry 0 is the `1/0` artifact,
not covered by the claim). -/
theorem c7_reciprocals (filename : String) (bytes : List Nat) (big : Bool)
    (t0 : FourierBSDFTable)
    (hok : (FourierBSDFTable.read filename (some bytes) big t0).outcome = .ok) :
    ∃ l, (FourierBSDFTable.read filename (some bytes) big t0).table.recip = some l ∧
      (l.length : Int) = (FourierBSDFTable.read filename (some bytes) big t0).table.mMax ∧
      ∀ k : Nat, 1 ≤ k →
        (k : Int) < (FourierBSDFTable.read filename (some bytes) big t0).table.mMax →
        l.getD k 0 = 1 / (k : ℚ) := by
  obtain ⟨hha, hMu, hCo, hMx, hlen, r, hD, htab⟩ := read_ok_spec filename bytes big t0 hok
  refine ⟨(List.range (mMaxOf bytes).toNat).map (fun i : Nat => 1 / (i : ℚ)),
    by rw [htab], ?_, ?_⟩
  · rw [htab]
    simp only [List.length_map, List.length_range]
    omega
  · intro k h1 h2
    rw [htab] at h2
    have hk : k < (mMaxOf bytes).toNat := by
      simp only at h2
      omega
    rw [List.getD_eq_getElem?_getD, List.getElem?_map, List.getElem?_range hk]
    rfl

/-- C7 witness: `fileF1` declares `mMax = 3`; the loaded table has
`recip = [1/0, 1, 1/2]` with `recip[1] = 1` and `recip[2] = 1/2`. -/
theorem c7_witness :
    ∃ l, (FourierBSDFTable.read "pair.bsdf" (some fileF1) false initTable).table.recip =
      some l ∧
      (l.length : Int) =
        (FourierBSDFTable.read "pair.bsdf" (some fileF1) false initTable).table.mMax ∧
      ∀ k : Nat, 1 ≤ k →
        (k : Int) <
          (FourierBSDFTable.read "pair.bsdf" (some fileF1) false initTable).table.mMax →
        l.getD k 0 = 1 / (k : ℚ) :=
  c7_reciprocals "pair.bsdf" fileF1 false initTable rfl

/-- C8 counterexample: the well-formed `fileF0` loads on a little-endian host, but
the same file re-serialized in the opposite byte order does *not* decode to the
same in-memory values on a big-endian host — it is rejected outright, because the
loader always interprets the file as little-endian (the conditional byte swap
compensates for the host, not for the file). -/
theorem c8_counterexample :
    (FourierBSDFTable.read "min.bsdf" (some fileF0) false initTable).outcome = .ok ∧
    (FourierBSDFTable.read "min.bsdf" (some (oppositeByteOrder fileF0)) true
      initTable).outcome = .fail :=
  ⟨rfl, rfl⟩

/-- C8 as amended: byte-order independence holds for the *same* file content —
decoding is invariant under the host byte-order flag, since the big-endian host's
native word assembly composed with `__builtin_bswap32` equals the little-endian
decode. -/
theorem c8_amended_host_independent (filename : String) (contents : Option (List Nat))
    (big : Bool) (t0 : FourierBSDFTable) :
    FourierBSDFTable.read filename contents big t0 =
      FourierBSDFTable.read filename contents false t0 :=
  read_host_indep filename contents big t0

/-- C9 counterexample: `fileF0` declares `nMu = 0` and loads successfully — the
loader never checks `nMu ≥ 1`. -/
theorem c9_counterexample :
    (FourierBSDFTable.read "min.bsdf" (some fileF0) false initTable).outcome = .ok ∧
    (FourierBSDFTable.read "min.bsdf" (some fileF0) false initTable).table.nMu = 0 :=
  ⟨rfl, rfl⟩

/-- C9 as amended: a successfully loaded table satisfies only `nMu ≥ 0` (a negative
`nMu` aborts via the throwing allocation before any bulk read; `nMu = 0` is
accepted). -/
theorem c9_amended_nMu_nonneg (filename : String) (bytes : List Nat) (big : Bool)
    (t0 : FourierBSDFTable)
    (hok : (FourierBSDFTable.read filename (some bytes) big t0).outcome = .ok) :
    0 ≤ (FourierBSDFTable.read filename (some bytes) big t0).table.nMu := by
  obtain ⟨hha, hMu, hCo, hMx, hlen, r, hD, htab⟩ := read_ok_spec filename bytes big t0 hok
  rw [htab]
  exact hMu

/-- C9 amended, witness. -/
theorem c9_amended_witness :
    0 ≤ (FourierBSDFTable.read "min.bsdf" (some fileF0) false initTable).table.nMu :=
  c9_amended_nMu_nonneg "min.bsdf" fileF0 false initTable rfl

/-- C10: if the header was fully read (magic matched, 64 bytes present) with a
positive `nChannels` and the load nevertheless did not succeed, the caller's table
retains the header's positive `nChannels`, and the `nChannels > 0` test of
`ComputeScatteringFunctions` — documented in the source as a proxy for a
successful read — adds a `FourierBSDF` built from the failed table. -/
theorem c10_broken_proxy (filename : String) (bytes : List Nat) (big : Bool)
    (t0 : FourierBSDFTable)
    (hm : (bytes.take 8).map (fun b => b % 256) = magicBytes)
    (hlen : 64 ≤ bytes.length) (hch : 0 < nChannelsOf bytes)
    (hfail : (FourierBSDFTable.read filename (some bytes) big t0).outcome ≠ .ok) :
    (FourierBSDFTable.read filename (some bytes) big t0).table.nChannels =
      nChannelsOf bytes ∧
    addsFourierBSDF (FourierBSDFTable.read filename (some bytes) big t0).table =
      true := by
  have h := read_table_nChannels filename bytes big t0 hm (by omega)
  refine ⟨h, ?_⟩
  rw [addsFourierBSDF, h]
  exact decide_eq_true hch

/-- C10 witness: the truncated `fileF2` fails to load, yet keeps `nChannels = 1`
and passes the proxy. -/
theorem c10_witness :
    (FourierBSDFTable.read "trunc.bsdf" (some fileF2) false initTable).table.nChannels
      = nChannelsOf fileF2 ∧
    addsFourierBSDF
      (FourierBSDFTable.read "trunc.bsdf" (some fileF2) false initTable).table =
      true :=
  c10_broken_proxy "trunc.bsdf" fileF2 false initTable (by decide) (by decide)
    (by decide) (by decide)

end PbrtFourier
